import Mathlib

/-!
Verification of the SAM reliable-transport protocol engine (`modules/up_link.py`)
and the hot-standby failover controller (`modules/hot_standby.py`) of the
BrakeControlSystemGUI repository.

Bytes are modelled as `Nat` (the Python code works on `bytes`/`bytearray`
values, each element `0 ≤ b < 256`; theorems carry the `< 256` bounds where
they matter).  Wall-clock instants are modelled as `ℚ` (the Python code
compares `float` second differences against small integer thresholds; the
comparisons involved are exact).  Qt timers are modelled as Bool "running"
flags, and network transmission (`send_data`) as an append-only trace of the
transmitted byte strings.
-/

/-! ## Frame codec (up_link.py lines 370-420) -/

/-- One iteration of the inner bit loop of `_calculate_crc`:
`crc = (crc << 1) ^ poly` when bit 15 is set, else `crc <<= 1`.
The Python loop does not mask inside the bit loop; the mask is applied once
per byte, which this embedding mirrors in `crcByte`. -/
def crcRound (c : Nat) : Nat :=
  if c &&& 0x8000 ≠ 0 then (c <<< 1) ^^^ 0x1021 else c <<< 1

/-- One iteration of the outer byte loop of `_calculate_crc`:
`crc ^= byte << 8`, eight bit rounds, then `crc &= 0xFFFF`. -/
def crcByte (c b : Nat) : Nat :=
  (crcRound^[8] (c ^^^ (b <<< 8))) &&& 0xFFFF

/-- Embedding of `_calculate_crc`: CRC-16, seed 0x0000, polynomial 0x1021, MSB first. -/
def calculate_crc (data : List Nat) : Nat :=
  data.foldl crcByte 0

/-- The masked single-round map: `crcRound` followed by the 16-bit mask.
This is the GF(2)-linear map that a full byte step iterates eight times; it
agrees with the unmasked Python rounds modulo 2^16 (lemma `crcRound_mask`). -/
def crcRoundM (c : Nat) : Nat :=
  (crcRound c) &&& 0xFFFF

/-- Embedding of `struct.pack('<H', n)`: two little-endian bytes.  (For `n < 65536`, which
holds everywhere the code packs, this is exact; Python raises on larger
values.) -/
def pack16 (n : Nat) : List Nat := [n % 256, n / 256 % 256]

/-- The escaped expansion of a single byte, from the loop at the end of
`_build_frame`: `0x7D -> 7F FD`, `0x7E -> 7F FE`, `0x7F -> 7F FF`,
anything else passes through. -/
def escChunk (b : Nat) : List Nat :=
  if b = 0x7D then [0x7F, 0xFD]
  else if b = 0x7E then [0x7F, 0xFE]
  else if b = 0x7F then [0x7F, 0xFF]
  else [b]

/-- The escaping loop of `_build_frame` applied to a whole byte string. -/
def escapeBytes : List Nat → List Nat
  | [] => []
  | b :: rest => escChunk b ++ escapeBytes rest

/-- Embedding of `_deescape_payload`: inverse of the escaping loop; `none` models the
`ValueError("Invalid escape sequence")` raises. -/
def deescape_payload : List Nat → Option (List Nat)
  | [] => some []
  | b :: rest =>
    if b = 0x7F then
      match rest with
      | [] => none
      | x :: rest2 =>
        if x = 0xFD then (deescape_payload rest2).map (fun d => 0x7D :: d)
        else if x = 0xFE then (deescape_payload rest2).map (fun d => 0x7E :: d)
        else if x = 0xFF then (deescape_payload rest2).map (fun d => 0x7F :: d)
        else none
    else (deescape_payload rest).map (fun d => b :: d)

/-- The "crc_data" assembled by `_build_frame`: length byte 0x04, header
`[0x10, send_seq, ack_seq, frame_type]`, then — only when
`frame_type >= 0x20 and frame_type != 0x85` — a 16-bit little-endian payload
length, then the payload. -/
def frame_body (ftv : Nat) (data : List Nat) (send_seq ack_seq : Nat) : List Nat :=
  let base := [0x04, 0x10, send_seq, ack_seq, ftv]
  if 0x20 ≤ ftv ∧ ftv ≠ 0x85 then base ++ pack16 data.length ++ data
  else base ++ data

/-- Embedding of `_build_frame`: body, little-endian CRC over the body, escaping, and the
`0x7D`/`0x7E` delimiters. -/
def build_frame (ftv : Nat) (data : List Nat) (send_seq ack_seq : Nat) : List Nat :=
  let body := frame_body ftv data send_seq ack_seq
  0x7D :: escapeBytes (body ++ pack16 (calculate_crc body)) ++ [0x7E]

/-- The `SamFrameType` enumeration values (DC2, DC3, ACK, NACK, SDI, BCC,
TSQ, TSD, ACQ, ACA, RSR); `SamFrameType(v)` raises for anything else. -/
def sam_frame_types : List Nat :=
  [0x12, 0x13, 0x06, 0x15, 0x85, 0x95, 0x9a, 0xa5, 0x75, 0x7a, 0xaa]

/-- Embedding of `struct.unpack('<H', b)[0]` on the two trailing CRC bytes (the receive
path always passes exactly two bytes here; other shapes raise, which the
callers treat as a swallowed exception before any CRC comparison). -/
def unpack16 (l : List Nat) : Nat :=
  match l with
  | [c0, c1] => c0 + 256 * c1
  | _ => 0

/-- Outcome of decoding one received delimited frame, following the receive
path: `_process_frame` (strip delimiters, de-escape, split and verify the
CRC) and the header/content extraction of `_parse_and_dispatch` (fields at
offsets 2, 3, 4 of the checked data; content at offset 7, as every handler
reads `payload[7:]`). -/
inductive DecodeResult where
  | ok (ftv sseq aseq : Nat) (content : List Nat)
  | crcError
  | formatError
  | parseError
deriving DecidableEq, Repr

/-- Decoding of one complete frame, assembled from `_process_frame` and the
parsing part of `_parse_and_dispatch`.  `formatError` covers a bad escape
sequence or a frame too short to carry a CRC; `parseError` covers a checked
payload too short for the header fields or an unknown frame-type value. -/
def decode_frame (raw : List Nat) : DecodeResult :=
  if raw.head? = some 0x7D ∧ raw.getLast? = some 0x7E then
    match deescape_payload raw.tail.dropLast with
    | none => .formatError
    | some u =>
      if 2 ≤ u.length then
        let data := u.take (u.length - 2)
        if unpack16 (u.drop (u.length - 2)) = calculate_crc data then
          match data with
          | _ :: _ :: sseq :: aseq :: ftv :: _ =>
            if ftv ∈ sam_frame_types then .ok ftv sseq aseq (data.drop 7)
            else .parseError
          | _ => .parseError
        else .crcError
      else .formatError
  else .formatError

/-! ## Reliable transport engine (up_link.py, class SamTcpClient)

Protocol constants: `MAX_RETRIES = 2`, `MAX_CONSECUTIVE_CRC_ERRORS = 5`.
Frame-type byte values: DC2 = 0x12, DC3 = 0x13, ACK = 0x06, NACK = 0x15,
SDI = 0x85, TSQ = 0x9a, TSD = 0xa5, ACQ = 0x75, ACA = 0x7a, RSR = 0xaa. -/

/-- The commands accepted by `_queue_command` / `_execute_command`.  The
Python queue stores `(command, data)` pairs but `_execute_command` never
reads `data`, so it is omitted.  `unknownCmd` stands for any string outside
the four recognized ones. -/
inductive Command where
  | requestCentralControl
  | requestTimeSync
  | sendRSR
  | sendSDI
  | unknownCmd
deriving DecidableEq, Repr

/-- The events emitted through `sam_event.emit`, reduced to the fields the
claims talk about. -/
inductive SamEvent where
  | connectionLost
  | handshakeSuccess
  | ackConfirm (seq : Nat)
  | acaResult (success : Bool)
  | timeData (year month day hour minute second : Nat)
  | rsrReport (mb ac : Nat)
  | unhandledFrame (ftv : Nat) (content : List Nat)
deriving DecidableEq, Repr

/-- Embedding of `self._in_flight_frame`: the stored dict
`{"frame_bytes": ..., "send_seq": ..., "type": ...}`. -/
structure InFlight where
  frame_bytes : List Nat
  send_seq : Nat
  ftype : Nat
deriving DecidableEq, Repr

/-- The protocol-layer state of `SamTcpClient`.  Timers are modelled by
their running flag; `sent` is the trace of byte strings passed to
`send_data`; `events` the trace of `sam_event` emissions.
`sdi_callback = none` models an unset callback, `some none` a callback that
does not return `bytes`, and `some (some bs)` one returning `bs`. -/
structure SamState where
  handshake_complete : Bool
  send_sequence : Nat
  ack_sequence : Nat
  my_master_backup_status : Nat
  my_control_mode : Nat
  command_queue : List Command
  in_flight : Option InFlight
  retry_count : Nat
  consecutive_crc_errors : Nat
  is_waiting_for_aca : Bool
  retrans_timer : Bool
  aca_timer : Bool
  initial_tsq_timer : Bool
  daily_tsq_timer : Bool
  periodic_timer : Bool
  sdi_callback : Option (Option (List Nat))
  sent : List (List Nat)
  events : List SamEvent
deriving DecidableEq, Repr

/-- Sequence advance on acknowledgement:
`(send_sequence % 255) + 1 if send_sequence != 0 else 1`. -/
def advance_seq (n : Nat) : Nat :=
  if n ≠ 0 then n % 255 + 1 else 1

/-- Embedding of `_send_data_frame`: build from the current sequence numbers, store as the
in-flight request with a fresh retry counter, transmit, start the
retransmission timer. -/
def send_data_frame (ftv : Nat) (data : List Nat) (s : SamState) : SamState :=
  let fr := build_frame ftv data s.send_sequence s.ack_sequence
  { s with in_flight := some ⟨fr, s.send_sequence, ftv⟩
         , retry_count := 0
         , sent := s.sent ++ [fr]
         , retrans_timer := true }

/-- Embedding of `_send_nack_frame`: transmit a NACK built from the current sequence
numbers; not stored, no timer. -/
def send_nack_frame (s : SamState) : SamState :=
  { s with sent := s.sent ++ [build_frame 0x15 [] s.send_sequence s.ack_sequence] }

/-- Embedding of `_reset_protocol_layer`: clear the session (sequence counters, all
timers, in-flight request, ACA wait, retry and CRC-error counters, command
queue) and emit a connection-lost event when a handshake had completed. -/
def reset_protocol_layer (s : SamState) : SamState :=
  { s with handshake_complete := false
         , send_sequence := 0
         , ack_sequence := 0
         , retrans_timer := false
         , aca_timer := false
         , initial_tsq_timer := false
         , daily_tsq_timer := false
         , periodic_timer := false
         , in_flight := none
         , is_waiting_for_aca := false
         , retry_count := 0
         , consecutive_crc_errors := 0
         , command_queue := []
         , events := if s.handshake_complete then s.events ++ [.connectionLost] else s.events }

/-- Embedding of `_process_command_queue` together with the inlined `_execute_command`:
pop and execute the head command only when nothing is in flight.  A
`SEND_SDI` whose callback is unset or does not return bytes logs and
processes the queue again; an unknown command only logs. -/
def process_command_queue (s : SamState) : SamState :=
  if s.in_flight ≠ none then s
  else
    match _h : s.command_queue with
    | [] => s
    | c :: rest =>
      let s1 := { s with command_queue := rest }
      match c with
      | .requestCentralControl =>
        { send_data_frame 0x75 [] s1 with is_waiting_for_aca := true, aca_timer := true }
      | .requestTimeSync => send_data_frame 0x9a [] s1
      | .sendRSR =>
        send_data_frame 0xaa [s1.my_master_backup_status, s1.my_control_mode] s1
      | .sendSDI =>
        match s1.sdi_callback with
        | some (some bs) => send_data_frame 0x85 bs s1
        | _ => process_command_queue s1
      | .unknownCmd => s1
termination_by s.command_queue.length
decreasing_by simp_all

/-- Embedding of `_queue_command`: append unconditionally, then try to process. -/
def queue_command (c : Command) (s : SamState) : SamState :=
  process_command_queue { s with command_queue := s.command_queue ++ [c] }

/-- Embedding of `_on_retransmission_timeout(is_nack)`: with a request in flight, count
the attempt (unless it came from a NACK), and either retransmit the stored
bytes unchanged or — past `MAX_RETRIES` — reset the whole session. -/
def on_retransmission_timeout (is_nack : Bool) (s : SamState) : SamState :=
  match s.in_flight with
  | none => s
  | some f =>
    let s1 := if is_nack then s else { s with retry_count := s.retry_count + 1 }
    if s1.retry_count > 2 then
      process_command_queue (reset_protocol_layer { s1 with in_flight := none })
    else
      { s1 with sent := s1.sent ++ [f.frame_bytes], retrans_timer := true }

/-- Embedding of `_handle_ack`: only an ACK matching an in-flight RSR or SDI request
clears it, advances the send sequence and dispatches the next command. -/
def handle_ack (received_ack_seq : Nat) (s : SamState) : SamState :=
  match s.in_flight with
  | none => s
  | some f =>
    if f.ftype = 0xaa ∨ f.ftype = 0x85 then
      if received_ack_seq = f.send_seq then
        process_command_queue
          { s with retrans_timer := false
                 , in_flight := none
                 , send_sequence := advance_seq s.send_sequence
                 , events := s.events ++ [.ackConfirm received_ack_seq] }
      else s
    else s

/-- Embedding of `_handle_nack`: with a request in flight, stop the timer and retransmit
immediately without counting the attempt. -/
def handle_nack (s : SamState) : SamState :=
  if s.in_flight ≠ none then
    on_retransmission_timeout true { s with retrans_timer := false }
  else s

/-- Embedding of `_send_dc3_frame`: reply to the handshake, activate the session and
start the scheduled reporting timers. -/
def send_dc3_frame (s : SamState) : SamState :=
  { s with sent := s.sent ++ [build_frame 0x13 [] 0 0]
         , handshake_complete := true
         , send_sequence := 1
         , ack_sequence := 0
         , events := s.events ++ [.handshakeSuccess]
         , initial_tsq_timer := true
         , daily_tsq_timer := true
         , periodic_timer := true }

/-- Embedding of `_handle_dc2`: only a DC2 with both sequence numbers zero is answered. -/
def handle_dc2 (sseq aseq : Nat) (s : SamState) : SamState :=
  if sseq = 0 ∧ aseq = 0 then send_dc3_frame s else s

/-- Embedding of `_handle_rsr`: a well-formed two-byte report is emitted and answered by
queueing our own RSR; the queue is processed in every case. -/
def handle_rsr (payload : List Nat) (s : SamState) : SamState :=
  match payload.drop 7 with
  | [mb, ac] =>
    process_command_queue
      (queue_command .sendRSR { s with events := s.events ++ [.rsrReport mb ac] })
  | _ => process_command_queue s

/-- The `self._in_flight_frame and self._in_flight_frame['type'] == t`
guards of `_handle_aca` and `_handle_tsd`. -/
def in_flight_type_is (t : Nat) (s : SamState) : Bool :=
  match s.in_flight with
  | some f => f.ftype == t
  | none => false

/-- Embedding of `_handle_aca`: only meaningful while an ACQ is in flight and awaited;
stops both timers, clears the request, advances the sequence, and reports
success exactly for the single accept byte 0x55. -/
def handle_aca (payload : List Nat) (s : SamState) : SamState :=
  if s.is_waiting_for_aca && in_flight_type_is 0x75 s then
    let s1 := { s with aca_timer := false
                     , retrans_timer := false
                     , is_waiting_for_aca := false
                     , in_flight := none
                     , send_sequence := advance_seq s.send_sequence }
    let s2 :=
      match payload.drop 7 with
      | [code] =>
        if code = 0x55 then
          { s1 with my_control_mode := 0x55, events := s1.events ++ [.acaResult true] }
        else { s1 with events := s1.events ++ [.acaResult false] }
      | _ => { s1 with events := s1.events ++ [.acaResult false] }
    process_command_queue s2
  else s

/-- Embedding of `_bcd_to_int`. -/
def bcd_to_int (b : Nat) : Nat :=
  ((b &&& 0xF0) >>> 4) * 10 + (b &&& 0x0F)

/-- Embedding of `_handle_tsd`: only meaningful while a TSQ is in flight; clears it,
advances the sequence, and decodes seven BCD bytes into a timestamp. -/
def handle_tsd (payload : List Nat) (s : SamState) : SamState :=
  if in_flight_type_is 0x9a s then
    let s1 := { s with retrans_timer := false
                     , in_flight := none
                     , send_sequence := advance_seq s.send_sequence }
    let s2 :=
      match payload.drop 7 with
      | [d0, d1, d2, d3, d4, d5, d6] =>
        { s1 with events := s1.events ++
            [.timeData (bcd_to_int d1 * 100 + bcd_to_int d0) (bcd_to_int d2)
                       (bcd_to_int d3) (bcd_to_int d4) (bcd_to_int d5) (bcd_to_int d6)] }
      | _ => s1
    process_command_queue s2
  else s

/-- The `handler_map` dispatch of `_parse_and_dispatch`; unrecognized (but
valid) types are emitted as a generic unhandled event carrying
`payload[7:]`. -/
def dispatch_by_type (ftv sseq aseq : Nat) (payload : List Nat) (s : SamState) : SamState :=
  if ftv = 0x12 then handle_dc2 sseq aseq s
  else if ftv = 0x13 then s
  else if ftv = 0x06 then handle_ack aseq s
  else if ftv = 0x15 then handle_nack s
  else if ftv = 0xaa then handle_rsr payload s
  else if ftv = 0x7a then handle_aca payload s
  else if ftv = 0xa5 then handle_tsd payload s
  else { s with events := s.events ++ [.unhandledFrame ftv (payload.drop 7)] }

/-- Embedding of `_parse_and_dispatch` on the CRC-checked data: header fields at offsets
2, 3, 4; a payload too short to carry them, or an unknown frame-type value,
raises and is swallowed (state unchanged).  After the handshake, for
non-handshake types, a send-sequence jump of 2 or more past a nonzero
`ack_sequence` resets the session instead of dispatching; otherwise the
incoming sequence is adopted as `ack_sequence` before the type dispatch. -/
def parse_and_dispatch (payload : List Nat) (s : SamState) : SamState :=
  match payload with
  | _ :: _ :: sseq :: aseq :: ftv :: _ =>
    if ftv ∈ sam_frame_types then
      if s.handshake_complete ∧ ¬(ftv = 0x12 ∨ ftv = 0x13) then
        if s.ack_sequence ≠ 0 ∧ sseq ≠ s.ack_sequence ∧ s.ack_sequence + 2 ≤ sseq then
          reset_protocol_layer s
        else
          dispatch_by_type ftv sseq aseq payload { s with ack_sequence := sseq }
      else dispatch_by_type ftv sseq aseq payload s
    else s
  | _ => s

/-- Embedding of `_process_frame` on one delimited raw frame: strip the delimiters,
de-escape (a raise leaves the state unchanged), split off and verify the
CRC.  A mismatch bumps the consecutive-error counter and either resets the
whole session (at `MAX_CONSECUTIVE_CRC_ERRORS`) or answers with a NACK; a
match clears the counter and dispatches. -/
def process_frame (raw : List Nat) (s : SamState) : SamState :=
  match deescape_payload (raw.drop 1).dropLast with
  | none => s
  | some u =>
    if 2 ≤ u.length then
      let data := u.take (u.length - 2)
      if unpack16 (u.drop (u.length - 2)) = calculate_crc data then
        parse_and_dispatch data { s with consecutive_crc_errors := 0 }
      else
        let s1 := { s with consecutive_crc_errors := s.consecutive_crc_errors + 1 }
        if 5 ≤ s1.consecutive_crc_errors then reset_protocol_layer s1
        else send_nack_frame s1
    else s

/-! ## Hot-standby failover controller (hot_standby.py, class HotStandby)

`heartbeat_interval = 0.5`, `timeout_threshold = 2`,
`dual_master_resolve_delay = 2` seconds.  Instants are rationals; the
outcome of `random.choice([True, False])` in `resolve_dual_master` is passed
in as an explicit `coin` argument. -/

/-- Embedding of `MachineRole`. -/
inductive MachineRole where
  | MASTER
  | BACKUP
deriving DecidableEq, Repr

/-- Embedding of `HeartbeatStatus`. -/
inductive HeartbeatStatus where
  | ONLINE
  | OFFLINE
deriving DecidableEq, Repr

/-- The mutable state of a `HotStandby` controller.  `demotions_sent` counts
calls to `send_demotion_notification` (the UDP datagram itself is outside
the model). -/
structure HotStandbyState where
  running : Bool
  local_role : MachineRole
  local_status : HeartbeatStatus
  remote_role : MachineRole
  remote_status : HeartbeatStatus
  last_heartbeat_time : Option ℚ
  dual_master_check_time : Option ℚ
  local_ip : Nat
  remote_ip : Nat
  demotions_sent : Nat
deriving DecidableEq, Repr

/-- Constant `timeout_threshold` (seconds). -/
def timeout_threshold : ℚ := 2

/-- Constant `dual_master_resolve_delay` (seconds). -/
def dual_master_resolve_delay : ℚ := 2

/-- Embedding of `monitor_task` at instant `now`: if a heartbeat was ever received and it
is older than the timeout threshold while the peer is not already marked
offline, mark the peer offline and demote its recorded role; a local BACKUP
then self-promotes to MASTER.  (The timer restart and the status snapshot
emission carry no protocol state.) -/
def monitor_task (now : ℚ) (st : HotStandbyState) : HotStandbyState :=
  if ¬st.running then st
  else
    match st.last_heartbeat_time with
    | none => st
    | some t =>
      if timeout_threshold < now - t then
        if st.remote_status ≠ .OFFLINE then
          let st1 := { st with remote_status := .OFFLINE, remote_role := .BACKUP }
          if st1.local_role = .BACKUP then { st1 with local_role := .MASTER } else st1
        else st
      else st

/-- Embedding of `resolve_dual_master`: the side with the numerically larger IP demotes
itself and notifies the peer; the smaller keeps MASTER; equal addresses fall
back to a coin flip that decides whether the local side demotes itself.  The
detection time is cleared in every case. -/
def resolve_dual_master (coin : Bool) (st : HotStandbyState) : HotStandbyState :=
  if st.remote_ip < st.local_ip then
    { st with local_role := .BACKUP
            , remote_role := .MASTER
            , demotions_sent := st.demotions_sent + 1
            , dual_master_check_time := none }
  else if st.local_ip < st.remote_ip then
    { st with dual_master_check_time := none }
  else if coin then
    { st with local_role := .BACKUP, dual_master_check_time := none }
  else
    { st with dual_master_check_time := none }

/-- Embedding of `check_dual_master` at instant `now`: while both sides claim MASTER with
the peer online, a first detection only records `now`; once the recorded
detection is `dual_master_resolve_delay` old the conflict is resolved.
Otherwise any pending detection time is discarded. -/
def check_dual_master (now : ℚ) (coin : Bool) (st : HotStandbyState) : HotStandbyState :=
  if st.local_role = .MASTER ∧ st.remote_role = .MASTER ∧ st.remote_status = .ONLINE then
    match st.dual_master_check_time with
    | none => { st with dual_master_check_time := some now }
    | some t0 =>
      if dual_master_resolve_delay ≤ now - t0 then resolve_dual_master coin st
      else st
  else
    if st.dual_master_check_time ≠ none then { st with dual_master_check_time := none }
    else st

/-- The protocol-layer fields as `__init__` leaves them (handshake pending,
zero counters, empty queue, nothing in flight, timers stopped, no SDI
callback). -/
def initial_sam_state : SamState :=
  { handshake_complete := false
  , send_sequence := 0
  , ack_sequence := 0
  , my_master_backup_status := 0x55
  , my_control_mode := 0xaa
  , command_queue := []
  , in_flight := none
  , retry_count := 0
  , consecutive_crc_errors := 0
  , is_waiting_for_aca := false
  , retrans_timer := false
  , aca_timer := false
  , initial_tsq_timer := false
  , daily_tsq_timer := false
  , periodic_timer := false
  , sdi_callback := none
  , sent := []
  , events := [] }

/-- Value of `int(ipaddress.ip_address("192.168.1.106"))`, the address of machine A. -/
def ip_machine_a : Nat := 3232235882

/-- Value of `int(ipaddress.ip_address("192.168.1.110"))`, the address of machine B. -/
def ip_machine_b : Nat := 3232235886

/-! ## Helper lemmas -/

theorem pcq_of_in_flight (s : SamState) (h : s.in_flight ≠ none) :
    process_command_queue s = s := by
  rw [process_command_queue]
  simp [h]

theorem pcq_core_aux : ∀ (n : Nat) (s : SamState), s.command_queue.length ≤ n →
    (process_command_queue s).send_sequence = s.send_sequence ∧
    (process_command_queue s).ack_sequence = s.ack_sequence ∧
    (process_command_queue s).handshake_complete = s.handshake_complete ∧
    (∀ f, (process_command_queue s).in_flight = some f →
      s.in_flight = some f ∨ f.send_seq = s.send_sequence) := by
  intro n
  induction n with
  | zero =>
    intro s hs
    have hq : s.command_queue = [] := by
      cases hqq : s.command_queue <;> simp_all
    rw [process_command_queue]
    split
    · exact ⟨rfl, rfl, rfl, fun f hf => Or.inl hf⟩
    · split
      · exact ⟨rfl, rfl, rfl, fun f hf => Or.inl hf⟩
      · rename_i hcons
        rw [hq] at hcons
        cases hcons
  | succ n ih =>
    intro s hs
    rw [process_command_queue]
    split
    · exact ⟨rfl, rfl, rfl, fun f hf => Or.inl hf⟩
    · split
      · exact ⟨rfl, rfl, rfl, fun f hf => Or.inl hf⟩
      · rename_i hin c rest hq
        have hrest : rest.length ≤ n := by
          have := congrArg List.length hq
          simp at this
          omega
        cases c
        case requestCentralControl =>
          exact ⟨rfl, rfl, rfl, fun f hf => by
            simp [send_data_frame] at hf
            exact Or.inr (by simp [← hf])⟩
        case requestTimeSync =>
          exact ⟨rfl, rfl, rfl, fun f hf => by
            simp [send_data_frame] at hf
            exact Or.inr (by simp [← hf])⟩
        case sendRSR =>
          exact ⟨rfl, rfl, rfl, fun f hf => by
            simp [send_data_frame] at hf
            exact Or.inr (by simp [← hf])⟩
        case sendSDI =>
          dsimp only
          rcases hcb : s.sdi_callback with _ | cb
          · simp only [hcb]
            have h2 := ih { s with command_queue := rest } (by simpa using hrest)
            rw [hcb] at h2
            refine ⟨h2.1, h2.2.1, h2.2.2.1, fun f hf => ?_⟩
            rcases h2.2.2.2 f hf with h | h
            · exact Or.inl (by simpa using h)
            · exact Or.inr h
          · rcases cb with _ | bs
            · simp only [hcb]
              have h2 := ih { s with command_queue := rest } (by simpa using hrest)
              rw [hcb] at h2
              refine ⟨h2.1, h2.2.1, h2.2.2.1, fun f hf => ?_⟩
              rcases h2.2.2.2 f hf with h | h
              · exact Or.inl (by simpa using h)
              · exact Or.inr h
            · simp only [hcb]
              exact ⟨rfl, rfl, rfl, fun f hf => by
                simp [send_data_frame] at hf
                exact Or.inr (by simp [← hf])⟩
        case unknownCmd =>
          exact ⟨rfl, rfl, rfl, fun f hf => Or.inl hf⟩

theorem pcq_core (s : SamState) :
    (process_command_queue s).send_sequence = s.send_sequence ∧
    (process_command_queue s).ack_sequence = s.ack_sequence ∧
    (process_command_queue s).handshake_complete = s.handshake_complete ∧
    (∀ f, (process_command_queue s).in_flight = some f →
      s.in_flight = some f ∨ f.send_seq = s.send_sequence) :=
  pcq_core_aux s.command_queue.length s le_rfl

theorem pcq_of_empty_queue (s : SamState) (h : s.command_queue = []) :
    process_command_queue s = s := by
  rw [process_command_queue]
  split
  · rfl
  · split
    · rfl
    · rename_i hcons
      rw [h] at hcons
      cases hcons

theorem queue_command_of_in_flight (s : SamState) (f : InFlight) (c : Command)
    (hf : s.in_flight = some f) :
    queue_command c s = { s with command_queue := s.command_queue ++ [c] } := by
  unfold queue_command
  exact pcq_of_in_flight _ (by simp [hf])

/-! ## Claim C1 -/

/-- C1: while a request is in flight, queueing any number of further
commands (each via `_queue_command`, which always runs
`_process_command_queue`) only appends them to the FIFO queue: no command is
popped and executed, no frame is transmitted, and the in-flight request is
untouched, so at most one frame is ever awaiting acknowledgement. -/
theorem c1_at_most_one_in_flight (s : SamState) (f : InFlight) (cmds : List Command)
    (hf : s.in_flight = some f) (_hn : 1 < cmds.length) :
    cmds.foldl (fun st c => queue_command c st) s
        = { s with command_queue := s.command_queue ++ cmds } ∧
    (cmds.foldl (fun st c => queue_command c st) s).sent = s.sent ∧
    (cmds.foldl (fun st c => queue_command c st) s).in_flight = some f := by
  have main : ∀ (cs : List Command) (t : SamState), t.in_flight = some f →
      cs.foldl (fun st c => queue_command c st) t
        = { t with command_queue := t.command_queue ++ cs } := by
    intro cs
    induction cs with
    | nil => intro t ht; simp
    | cons c cs ih =>
      intro t ht
      have hstep := queue_command_of_in_flight t f c ht
      simp only [List.foldl_cons, hstep]
      rw [ih _ (by simp [ht])]
      simp
  refine ⟨main cmds s hf, ?_, ?_⟩ <;> rw [main cmds s hf]
  exact hf

/-- Witness for C1: two RSR commands queued behind an in-flight RSR request
are only appended. -/
theorem c1_witness :
    ([Command.sendRSR, Command.sendRSR].foldl (fun st c => queue_command c st)
        { initial_sam_state with in_flight := some ⟨[1], 0, 0xaa⟩ }
      = { { initial_sam_state with in_flight := some ⟨[1], 0, 0xaa⟩ } with
          command_queue := [] ++ [Command.sendRSR, Command.sendRSR] }) ∧
    ([Command.sendRSR, Command.sendRSR].foldl (fun st c => queue_command c st)
        { initial_sam_state with in_flight := some ⟨[1], 0, 0xaa⟩ }).sent = [] ∧
    ([Command.sendRSR, Command.sendRSR].foldl (fun st c => queue_command c st)
        { initial_sam_state with in_flight := some ⟨[1], 0, 0xaa⟩ }).in_flight
      = some ⟨[1], 0, 0xaa⟩ :=
  c1_at_most_one_in_flight _ ⟨[1], 0, 0xaa⟩ _ rfl (by decide)

/-! ## Claim C3 -/

/-- C3: a data frame that is sent and then times out repeatedly is
retransmitted with exactly the stored bytes on the first and second timeout
(retry counter 1 and 2), and the third timeout — the one after the last
retry, exceeding `MAX_RETRIES = 2` — performs no further transmission and
exactly one full session reset: in-flight request, queue, timers and both
sequence counters cleared. -/
theorem c3_retry_bound (s0 : SamState) (ftv : Nat) (data : List Nat) :
    let fr := build_frame ftv data s0.send_sequence s0.ack_sequence
    let s1 := send_data_frame ftv data s0
    let t1 := on_retransmission_timeout false s1
    let t2 := on_retransmission_timeout false t1
    let t3 := on_retransmission_timeout false t2
    s1.sent = s0.sent ++ [fr] ∧ s1.retry_count = 0 ∧
    t1.sent = s0.sent ++ [fr, fr] ∧ t1.retry_count = 1 ∧
      t1.in_flight = some ⟨fr, s0.send_sequence, ftv⟩ ∧ t1.retrans_timer = true ∧
    t2.sent = s0.sent ++ [fr, fr, fr] ∧ t2.retry_count = 2 ∧
      t2.in_flight = some ⟨fr, s0.send_sequence, ftv⟩ ∧ t2.retrans_timer = true ∧
    t3 = { s0 with
           handshake_complete := false
         , send_sequence := 0
         , ack_sequence := 0
         , command_queue := []
         , in_flight := none
         , retry_count := 0
         , consecutive_crc_errors := 0
         , is_waiting_for_aca := false
         , retrans_timer := false
         , aca_timer := false
         , initial_tsq_timer := false
         , daily_tsq_timer := false
         , periodic_timer := false
         , sent := s0.sent ++ [fr, fr, fr]
         , events := if s0.handshake_complete then s0.events ++ [.connectionLost]
                     else s0.events } := by
  simp only [send_data_frame, on_retransmission_timeout, reset_protocol_layer]
  norm_num
  rw [pcq_of_empty_queue _ rfl]

/-! ## Claim C4 -/

/-- C4: with the handshake complete and `ack_sequence = 5`, a valid
non-handshake frame carrying `send_seq = 7` makes `_parse_and_dispatch`
perform a full protocol reset and nothing else (the frame is not
dispatched), while the same frame carrying `send_seq = 6` is dispatched by
type after `ack_sequence` has been updated to 6. -/
theorem c4_sequence_gap (s : SamState) (b0 b1 aq ftv : Nat) (rest : List Nat)
    (hhs : s.handshake_complete = true) (hack : s.ack_sequence = 5)
    (hmem : ftv ∈ sam_frame_types) (hnot : ¬(ftv = 0x12 ∨ ftv = 0x13)) :
    parse_and_dispatch (b0 :: b1 :: 7 :: aq :: ftv :: rest) s = reset_protocol_layer s ∧
    parse_and_dispatch (b0 :: b1 :: 6 :: aq :: ftv :: rest) s
      = dispatch_by_type ftv 6 aq (b0 :: b1 :: 6 :: aq :: ftv :: rest)
          { s with ack_sequence := 6 } := by
  constructor <;> simp [parse_and_dispatch, hhs, hack, hmem, hnot]

/-- Witness for C4 at a concrete state (`ack_sequence = 5`, handshake done)
and a concrete RSR frame. -/
theorem c4_witness :
    parse_and_dispatch [0x04, 0x10, 7, 0, 0xaa]
        { initial_sam_state with handshake_complete := true, ack_sequence := 5 }
      = reset_protocol_layer
          { initial_sam_state with handshake_complete := true, ack_sequence := 5 } ∧
    parse_and_dispatch [0x04, 0x10, 6, 0, 0xaa]
        { initial_sam_state with handshake_complete := true, ack_sequence := 5 }
      = dispatch_by_type 0xaa 6 0 [0x04, 0x10, 6, 0, 0xaa]
          { { initial_sam_state with handshake_complete := true, ack_sequence := 5 } with
            ack_sequence := 6 } :=
  c4_sequence_gap _ 0x04 0x10 0 0xaa [] rfl rfl (by decide) (by decide)

/-! ## Claim C8 -/

/-- C8: on a monitor tick where a heartbeat was previously received, its age
exceeds the 2-second timeout, and the peer is still recorded online, the
controller marks the peer offline, demotes the peer's recorded role to
BACKUP, and ends up MASTER itself — the local role actually changes exactly
when it was BACKUP (the self-promotion), and stays MASTER otherwise. -/
theorem c8_failover_promotion (st : HotStandbyState) (now t : ℚ)
    (hrun : st.running = true)
    (hhb : st.last_heartbeat_time = some t)
    (htime : timeout_threshold < now - t)
    (honline : st.remote_status ≠ .OFFLINE) :
    (monitor_task now st).remote_status = .OFFLINE ∧
    (monitor_task now st).remote_role = .BACKUP ∧
    (monitor_task now st).local_role = .MASTER ∧
    ((monitor_task now st).local_role ≠ st.local_role ↔ st.local_role = .BACKUP) := by
  cases hlr : st.local_role <;>
    simp [monitor_task, hrun, hhb, htime, honline, hlr]

/-- Witness for C8: a running BACKUP whose last heartbeat is 3 seconds old. -/
theorem c8_witness :
    (monitor_task 3 ⟨true, .BACKUP, .ONLINE, .MASTER, .ONLINE,
        some 0, none, ip_machine_a, ip_machine_b, 0⟩).remote_status = .OFFLINE ∧
    (monitor_task 3 ⟨true, .BACKUP, .ONLINE, .MASTER, .ONLINE,
        some 0, none, ip_machine_a, ip_machine_b, 0⟩).remote_role = .BACKUP ∧
    (monitor_task 3 ⟨true, .BACKUP, .ONLINE, .MASTER, .ONLINE,
        some 0, none, ip_machine_a, ip_machine_b, 0⟩).local_role = .MASTER ∧
    ((monitor_task 3 ⟨true, .BACKUP, .ONLINE, .MASTER, .ONLINE,
        some 0, none, ip_machine_a, ip_machine_b, 0⟩).local_role
        ≠ MachineRole.BACKUP ↔ MachineRole.BACKUP = MachineRole.BACKUP) :=
  c8_failover_promotion _ 3 0 rfl rfl (by norm_num [timeout_threshold]) (by decide)

/-! ## Claim C9 -/

/-- C9: while both sides claim MASTER with the peer online, the first
`check_dual_master` only records the detection instant and changes no role;
once the recorded detection is at least the 2-second resolution delay old,
the side with the numerically larger address demotes itself to BACKUP,
records the peer as MASTER and sends one demotion notification, the side
with the smaller address keeps MASTER, equal addresses demote the local side
exactly when the random draw says so — and the detection time is cleared in
every resolution branch. -/
theorem c9_split_brain (st : HotStandbyState) (now t0 : ℚ) (coin : Bool)
    (hl : st.local_role = .MASTER) (hr : st.remote_role = .MASTER)
    (hs : st.remote_status = .ONLINE) :
    (st.dual_master_check_time = none →
      check_dual_master now coin st = { st with dual_master_check_time := some now }) ∧
    (st.dual_master_check_time = some t0 → dual_master_resolve_delay ≤ now - t0 →
      check_dual_master now coin st = resolve_dual_master coin st ∧
      (st.remote_ip < st.local_ip →
        (check_dual_master now coin st).local_role = .BACKUP ∧
        (check_dual_master now coin st).remote_role = .MASTER ∧
        (check_dual_master now coin st).demotions_sent = st.demotions_sent + 1 ∧
        (check_dual_master now coin st).dual_master_check_time = none) ∧
      (st.local_ip < st.remote_ip →
        (check_dual_master now coin st).local_role = .MASTER ∧
        (check_dual_master now coin st).demotions_sent = st.demotions_sent ∧
        (check_dual_master now coin st).dual_master_check_time = none) ∧
      (st.local_ip = st.remote_ip →
        (coin = true → (check_dual_master now coin st).local_role = .BACKUP) ∧
        (coin = false → (check_dual_master now coin st).local_role = .MASTER) ∧
        (check_dual_master now coin st).dual_master_check_time = none)) := by
  constructor
  · intro hnone
    simp [check_dual_master, hl, hr, hs, hnone]
  · intro hsome hdelay
    have hstep : check_dual_master now coin st = resolve_dual_master coin st := by
      simp [check_dual_master, hl, hr, hs, hsome, hdelay]
    refine ⟨hstep, ?_, ?_, ?_⟩ <;> rw [hstep]
    · intro hgt
      have hnlt : ¬st.local_ip < st.remote_ip := by omega
      simp [resolve_dual_master, hgt, hnlt]
    · intro hlt
      have hngt : ¬st.remote_ip < st.local_ip := by omega
      simp [resolve_dual_master, hlt, hngt, hl]
    · intro heq
      have hngt : ¬st.remote_ip < st.local_ip := by omega
      have hnlt : ¬st.local_ip < st.remote_ip := by omega
      cases coin <;> simp [resolve_dual_master, hngt, hnlt, hl]

/-- Witness for C9: machine B (the larger address) in the dual-MASTER state,
with a detection recorded 3 seconds ago. -/
theorem c9_witness :
    ((⟨true, .MASTER, .ONLINE, .MASTER, .ONLINE, some 0, some 0,
        ip_machine_b, ip_machine_a, 0⟩ : HotStandbyState).dual_master_check_time = none →
      check_dual_master 3 true ⟨true, .MASTER, .ONLINE, .MASTER, .ONLINE, some 0, some 0,
          ip_machine_b, ip_machine_a, 0⟩
        = { (⟨true, .MASTER, .ONLINE, .MASTER, .ONLINE, some 0, some 0,
            ip_machine_b, ip_machine_a, 0⟩ : HotStandbyState) with
            dual_master_check_time := some 3 }) ∧
    ((⟨true, .MASTER, .ONLINE, .MASTER, .ONLINE, some 0, some 0,
        ip_machine_b, ip_machine_a, 0⟩ : HotStandbyState).dual_master_check_time = some 0 →
      dual_master_resolve_delay ≤ 3 - 0 →
      check_dual_master 3 true ⟨true, .MASTER, .ONLINE, .MASTER, .ONLINE, some 0, some 0,
          ip_machine_b, ip_machine_a, 0⟩
        = resolve_dual_master true ⟨true, .MASTER, .ONLINE, .MASTER, .ONLINE, some 0, some 0,
            ip_machine_b, ip_machine_a, 0⟩ ∧
      (ip_machine_a < ip_machine_b →
        (check_dual_master 3 true ⟨true, .MASTER, .ONLINE, .MASTER, .ONLINE, some 0, some 0,
            ip_machine_b, ip_machine_a, 0⟩).local_role = .BACKUP ∧
        (check_dual_master 3 true ⟨true, .MASTER, .ONLINE, .MASTER, .ONLINE, some 0, some 0,
            ip_machine_b, ip_machine_a, 0⟩).remote_role = .MASTER ∧
        (check_dual_master 3 true ⟨true, .MASTER, .ONLINE, .MASTER, .ONLINE, some 0, some 0,
            ip_machine_b, ip_machine_a, 0⟩).demotions_sent = 0 + 1 ∧
        (check_dual_master 3 true ⟨true, .MASTER, .ONLINE, .MASTER, .ONLINE, some 0, some 0,
            ip_machine_b, ip_machine_a, 0⟩).dual_master_check_time = none) ∧
      (ip_machine_b < ip_machine_a →
        (check_dual_master 3 true ⟨true, .MASTER, .ONLINE, .MASTER, .ONLINE, some 0, some 0,
            ip_machine_b, ip_machine_a, 0⟩).local_role = .MASTER ∧
        (check_dual_master 3 true ⟨true, .MASTER, .ONLINE, .MASTER, .ONLINE, some 0, some 0,
            ip_machine_b, ip_machine_a, 0⟩).demotions_sent = 0 ∧
        (check_dual_master 3 true ⟨true, .MASTER, .ONLINE, .MASTER, .ONLINE, some 0, some 0,
            ip_machine_b, ip_machine_a, 0⟩).dual_master_check_time = none) ∧
      (ip_machine_b = ip_machine_a →
        (true = true →
          (check_dual_master 3 true ⟨true, .MASTER, .ONLINE, .MASTER, .ONLINE, some 0, some 0,
              ip_machine_b, ip_machine_a, 0⟩).local_role = .BACKUP) ∧
        (true = false →
          (check_dual_master 3 true ⟨true, .MASTER, .ONLINE, .MASTER, .ONLINE, some 0, some 0,
              ip_machine_b, ip_machine_a, 0⟩).local_role = .MASTER) ∧
        (check_dual_master 3 true ⟨true, .MASTER, .ONLINE, .MASTER, .ONLINE, some 0, some 0,
            ip_machine_b, ip_machine_a, 0⟩).dual_master_check_time = none)) :=
  c9_split_brain _ 3 0 true rfl rfl rfl

/-! ## Claim C10 -/

/-- Counterexample to C10 as stated: with the consecutive-CRC-error counter
at 4 — which is below `MAX_CONSECUTIVE_CRC_ERRORS = 5` — a CRC-mismatched
frame does not merely increment the counter and emit a NACK: the increment
reaches the limit and the whole session is reset (handshake flag cleared,
counter back to 0, a connection-lost event emitted, no NACK sent). -/
theorem c10_counterexample :
    ({ initial_sam_state with handshake_complete := true, consecutive_crc_errors := 4 } : SamState).consecutive_crc_errors < 5 ∧
    process_frame [0x7D, 1, 0, 0, 0x7E]
        { initial_sam_state with handshake_complete := true, consecutive_crc_errors := 4 }
      ≠ send_nack_frame
          { initial_sam_state with handshake_complete := true, consecutive_crc_errors := 5 } ∧
    process_frame [0x7D, 1, 0, 0, 0x7E]
        { initial_sam_state with handshake_complete := true, consecutive_crc_errors := 4 }
      = reset_protocol_layer
          { initial_sam_state with handshake_complete := true, consecutive_crc_errors := 5 } := by
  refine ⟨by decide, ?_, ?_⟩ <;> decide

/-- C10 amended: when a received frame fails the CRC check and the counter
after the increment is still below `MAX_CONSECUTIVE_CRC_ERRORS = 5` (i.e.
the counter was below 4 before), the only state change is that increment
plus the transmitted NACK frame: handshake flag, sequence numbers, in-flight
request, retry counter, queue, timers and events are untouched. -/
theorem c10_crc_mismatch_atomic (s : SamState) (raw u : List Nat)
    (hde : deescape_payload (raw.drop 1).dropLast = some u)
    (hlen : 2 ≤ u.length)
    (hmism : unpack16 (u.drop (u.length - 2)) ≠ calculate_crc (u.take (u.length - 2)))
    (hcnt : s.consecutive_crc_errors + 1 < 5) :
    process_frame raw s
      = { s with consecutive_crc_errors := s.consecutive_crc_errors + 1
               , sent := s.sent ++ [build_frame 0x15 [] s.send_sequence s.ack_sequence] } := by
  have hlim : ¬5 ≤ s.consecutive_crc_errors + 1 := by omega
  simp only [List.drop_one] at hde
  simp [process_frame, hde, hlen, hmism, hlim, send_nack_frame]

/-- Witness for the amended C10 at counter 0 and a concrete bad frame. -/
theorem c10_witness :
    process_frame [0x7D, 1, 0, 0, 0x7E] initial_sam_state
      = { initial_sam_state with
          consecutive_crc_errors := 0 + 1,
          sent := initial_sam_state.sent ++ [build_frame 0x15 [] 0 0] } :=
  c10_crc_mismatch_atomic initial_sam_state _ [1, 0, 0] rfl (by decide) (by decide) (by decide)

/-! ## Claim C7 -/

theorem sam_set_ack_self (s : SamState) (v : Nat) (h : s.ack_sequence = v) :
    ({ s with ack_sequence := v } : SamState) = s := by
  cases s
  simp_all

theorem advance_seq_ne (n : Nat) (h : n ≤ 255) : advance_seq n ≠ n := by
  by_cases hn : n = 0 <;> simp [advance_seq, hn] <;> omega

theorem ack_redelivery_fixed (S : SamState) (aseq fsend b0 b1 : Nat) (rest : List Nat)
    (hhs : S.handshake_complete = true)
    (hack : S.ack_sequence = fsend)
    (hifS : ∀ f', S.in_flight = some f' → aseq ≠ f'.send_seq) :
    parse_and_dispatch (b0 :: b1 :: fsend :: aseq :: 0x06 :: rest) S = S := by
  have hgap : ¬(S.ack_sequence ≠ 0 ∧ fsend ≠ S.ack_sequence ∧ S.ack_sequence + 2 ≤ fsend) := by
    rw [hack]
    simp
  rcases hi : S.in_flight with _ | f'
  · simp [parse_and_dispatch, hhs, hgap, dispatch_by_type, sam_frame_types,
      sam_set_ack_self S fsend hack, handle_ack, hi]
    cases S
    simp_all
  · have hne := hifS f' hi
    simp [parse_and_dispatch, hhs, hgap, dispatch_by_type, sam_frame_types,
      sam_set_ack_self S fsend hack, handle_ack, hi, hne]
    cases S
    simp_all

/-- C7: after an acknowledge frame has matched and cleared the in-flight
request (and the queue has been processed), delivering the exact same
acknowledge frame again leaves the engine state — sequence numbers,
in-flight request, queue, traces, everything — unchanged. -/
theorem c7_ack_idempotent (s0 : SamState) (f : InFlight) (b0 b1 fsend : Nat) (rest : List Nat)
    (hhs : s0.handshake_complete = true)
    (hif : s0.in_flight = some f)
    (hseq : f.send_seq = s0.send_sequence)
    (htyp : f.ftype = 0xaa ∨ f.ftype = 0x85)
    (hbound : s0.send_sequence ≤ 255)
    (hnogap : ¬(s0.ack_sequence ≠ 0 ∧ fsend ≠ s0.ack_sequence ∧ s0.ack_sequence + 2 ≤ fsend)) :
    parse_and_dispatch (b0 :: b1 :: fsend :: f.send_seq :: 0x06 :: rest)
        (parse_and_dispatch (b0 :: b1 :: fsend :: f.send_seq :: 0x06 :: rest) s0)
      = parse_and_dispatch (b0 :: b1 :: fsend :: f.send_seq :: 0x06 :: rest) s0 := by
  have h1 : parse_and_dispatch (b0 :: b1 :: fsend :: f.send_seq :: 0x06 :: rest) s0
      = process_command_queue
          { s0 with ack_sequence := fsend
                  , retrans_timer := false
                  , in_flight := none
                  , send_sequence := advance_seq s0.send_sequence
                  , events := s0.events ++ [.ackConfirm f.send_seq] } := by
    rcases htyp with ht | ht <;>
      simp [parse_and_dispatch, hhs, hnogap, dispatch_by_type, sam_frame_types,
        handle_ack, hif, ht]
  rw [h1]
  have hS := pcq_core
    { s0 with ack_sequence := fsend
            , retrans_timer := false
            , in_flight := none
            , send_sequence := advance_seq s0.send_sequence
            , events := s0.events ++ [.ackConfirm f.send_seq] }
  apply ack_redelivery_fixed
  · rw [hS.2.2.1]
    exact hhs
  · rw [hS.2.1]
  · intro f' hf'
    rcases hS.2.2.2 f' hf' with h | h
    · simp at h
    · rw [hseq, h]
      exact fun hcontra =>
        advance_seq_ne s0.send_sequence hbound (by simpa using hcontra.symm)

/-- Witness for C7: a matching ACK delivered twice to an engine with an RSR
request in flight at sequence 1. -/
theorem c7_witness :
    parse_and_dispatch [0x04, 0x10, 1, 1, 0x06]
        (parse_and_dispatch [0x04, 0x10, 1, 1, 0x06]
          { initial_sam_state with
            handshake_complete := true,
            send_sequence := 1,
            in_flight := some ⟨[9], 1, 0xaa⟩,
            retrans_timer := true })
      = parse_and_dispatch [0x04, 0x10, 1, 1, 0x06]
          { initial_sam_state with
            handshake_complete := true,
            send_sequence := 1,
            in_flight := some ⟨[9], 1, 0xaa⟩,
            retrans_timer := true } :=
  c7_ack_idempotent _ ⟨[9], 1, 0xaa⟩ 0x04 0x10 1 [] rfl rfl rfl (Or.inl rfl)
    (by decide) (by decide)

/-! ## Claim C2 -/

theorem deescape_escChunk (b : Nat) (t : List Nat) :
    deescape_payload (escChunk b ++ t) = (deescape_payload t).map (fun d => b :: d) := by
  by_cases h1 : b = 0x7D
  · simp [escChunk, h1, deescape_payload]
  · by_cases h2 : b = 0x7E
    · simp [escChunk, h1, h2, deescape_payload]
    · by_cases h3 : b = 0x7F
      · simp [escChunk, h1, h2, h3, deescape_payload]
      · rw [escChunk, if_neg h1, if_neg h2, if_neg h3]
        rw [deescape_payload.eq_def]
        simp [h3]

theorem deescape_escape (u : List Nat) :
    deescape_payload (escapeBytes u) = some u := by
  induction u with
  | nil => rfl
  | cons b t ih => simp [escapeBytes, deescape_escChunk, ih]

theorem crcByte_lt (c b : Nat) : crcByte c b < 65536 := by
  have : crcByte c b ≤ 0xFFFF := Nat.and_le_right
  omega

theorem foldl_crcByte_lt : ∀ (l : List Nat) (c : Nat), c < 65536 →
    l.foldl crcByte c < 65536
  | [], c, h => by simpa using h
  | b :: t, c, _ => by
    rw [List.foldl_cons]
    exact foldl_crcByte_lt t (crcByte c b) (crcByte_lt c b)

theorem calculate_crc_lt (l : List Nat) : calculate_crc l < 65536 :=
  foldl_crcByte_lt l 0 (by decide)

theorem unpack16_pack16 (n : Nat) (h : n < 65536) : unpack16 (pack16 n) = n := by
  simp [unpack16, pack16]
  omega

theorem decode_build_frame (ftv : Nat) (data : List Nat) (sq aq : Nat)
    (hmem : ftv ∈ sam_frame_types) :
    decode_frame (build_frame ftv data sq aq)
      = .ok ftv sq aq (if 0x20 ≤ ftv ∧ ftv ≠ 0x85 then data else data.drop 2) := by
  have hsplit : ∀ (body : List Nat),
      body = frame_body ftv data sq aq →
      decode_frame (0x7D :: escapeBytes (body ++ pack16 (calculate_crc body)) ++ [0x7E])
        = .ok ftv sq aq (body.drop 7) := by
    intro body hbody
    have hlen2 : 2 ≤ (body ++ pack16 (calculate_crc body)).length := by
      simp [pack16]
    have htail : (body ++ pack16 (calculate_crc body)).length - 2 = body.length := by
      simp [pack16]
    rw [show (0x7D : Nat) :: escapeBytes (body ++ pack16 (calculate_crc body)) ++ [0x7E]
          = ((0x7D : Nat) :: escapeBytes (body ++ pack16 (calculate_crc body))) ++ [0x7E]
        from rfl]
    rw [decode_frame]
    rw [if_pos ⟨by simp, by rw [List.getLast?_concat]⟩]
    simp only [List.cons_append, List.tail_cons]
    rw [List.dropLast_concat, deescape_escape]
    dsimp only
    rw [if_pos hlen2]
    rw [htail]
    have hta : (body ++ pack16 (calculate_crc body)).take body.length = body :=
      List.take_left body _
    have hdr : (body ++ pack16 (calculate_crc body)).drop body.length = pack16 (calculate_crc body) :=
      List.drop_left body _
    rw [hta, hdr, unpack16_pack16 _ (calculate_crc_lt body), if_pos rfl]
    have hshape : body = 0x04 :: 0x10 :: sq :: aq :: ftv ::
        ((if 0x20 ≤ ftv ∧ ftv ≠ 0x85 then pack16 data.length ++ data else data)) := by
      rw [hbody, frame_body]
      split <;> simp
    rw [hshape]
    simp [hmem]
  have := hsplit (frame_body ftv data sq aq) rfl
  rw [build_frame]
  rw [this]
  congr 1
  rw [frame_body]
  split <;> simp [pack16]

set_option maxRecDepth 8192 in
/-- Counterexample to C2 as stated: an SDI (status-data, 0x85) frame with
payload `[1, 2, 3]` does not round-trip.  SDI frames are built without the
16-bit length field, but the receive path reads every frame's content at
offset 7 (`payload[7:]`), so two payload bytes are swallowed. -/
theorem c2_counterexample :
    decode_frame (build_frame 0x85 [1, 2, 3] 0 0) = .ok 0x85 0 0 [3] ∧
    decode_frame (build_frame 0x85 [1, 2, 3] 0 0) ≠ .ok 0x85 0 0 [1, 2, 3] := by
  constructor <;> decide

/-- C2 amended: encoding with `_build_frame` and decoding along the receive
path (`_process_frame` + `_parse_and_dispatch`) reproduces the frame type,
both sequence numbers and the exact payload bytes — including any mix of the
reserved bytes 0x7D/0x7E/0x7F — for every frame type that carries the length
field (value ≥ 0x20 and ≠ 0x85); for the remaining types (DC2, DC3, ACK,
NACK and the status-data type SDI) the offset-7 content extraction drops the
first two payload bytes, so the round-trip only holds for empty payloads. -/
theorem c2_roundtrip (ftv : Nat) (data : List Nat) (sq aq : Nat)
    (hmem : ftv ∈ sam_frame_types)
    (_hsq : sq ≤ 255) (_haq : aq ≤ 255) (_hlen : data.length < 65536)
    (hok : (0x20 ≤ ftv ∧ ftv ≠ 0x85) ∨ data = []) :
    decode_frame (build_frame ftv data sq aq) = .ok ftv sq aq data := by
  rw [decode_build_frame ftv data sq aq hmem]
  rcases hok with h | h
  · rw [if_pos h]
  · by_cases hd : 0x20 ≤ ftv ∧ ftv ≠ 0x85
    · rw [if_pos hd]
    · rw [if_neg hd, h]
      rfl

/-- Witness for the amended C2: an RSR frame whose payload is exactly the
three reserved bytes. -/
theorem c2_witness :
    decode_frame (build_frame 0xaa [0x7D, 0x7E, 0x7F] 1 2)
      = .ok 0xaa 1 2 [0x7D, 0x7E, 0x7F] :=
  c2_roundtrip 0xaa [0x7D, 0x7E, 0x7F] 1 2 (by decide) (by decide) (by decide)
    (by decide) (Or.inl (by decide))

/-! ## Claim C5 -/

/-- Counterexample to C5 as stated: NACK (0x15) is not the status-data type
(0x85), yet `_build_frame` gives it no little-endian length field — the
body goes straight from the 4-byte header to the payload.  (The same holds
for DC2, DC3 and ACK: the code keys the field on `value >= 0x20`, not on
"everything except status-data".) -/
theorem c5_counterexample :
    (0x15 : Nat) ≠ 0x85 ∧
    frame_body 0x15 [7] 0 0 ≠ [0x04, 0x10, 0, 0, 0x15] ++ pack16 [7].length ++ [7] ∧
    frame_body 0x15 [7] 0 0 = [0x04, 0x10, 0, 0, 0x15] ++ [7] := by
  refine ⟨by decide, by decide, by decide⟩

/-- C5 amended: the encoded body carries the little-endian 16-bit
payload-length field between the header and the payload exactly for frame
types with value ≥ 0x20 other than 0x85 (TSQ, TSD, ACQ, ACA, RSR, BCC); the
low-valued types DC2, DC3, ACK, NACK and the status-data type SDI (0x85)
omit it.  In both shapes the CRC appended by `_build_frame` is computed over
the 0x04 length byte, the header, the optional length field and the
payload. -/
theorem c5_length_field_rule (ftv : Nat) (data : List Nat) (sq aq : Nat) :
    (0x20 ≤ ftv ∧ ftv ≠ 0x85 →
      frame_body ftv data sq aq
        = [0x04, 0x10, sq, aq, ftv] ++ pack16 data.length ++ data) ∧
    (ftv < 0x20 ∨ ftv = 0x85 →
      frame_body ftv data sq aq = [0x04, 0x10, sq, aq, ftv] ++ data) ∧
    build_frame ftv data sq aq
      = 0x7D :: escapeBytes (frame_body ftv data sq aq
          ++ pack16 (calculate_crc (frame_body ftv data sq aq))) ++ [0x7E] := by
  refine ⟨fun h => ?_, fun h => ?_, rfl⟩
  · simp [frame_body, h]
  · have hneg : ¬(0x20 ≤ ftv ∧ ftv ≠ 0x85) := by
      rcases h with h | h <;> omega
    simp [frame_body, hneg]

/-- Witness for the amended C5: RSR (0xaa) carries the length field, SDI
(0x85) does not. -/
theorem c5_witness :
    frame_body 0xaa [7] 1 2 = [0x04, 0x10, 1, 2, 0xaa] ++ pack16 [7].length ++ [7] ∧
    frame_body 0x85 [7] 1 2 = [0x04, 0x10, 1, 2, 0x85] ++ [7] :=
  ⟨(c5_length_field_rule 0xaa [7] 1 2).1 (by decide),
   (c5_length_field_rule 0x85 [7] 1 2).2.1 (by decide)⟩

/-! ## Claim C6: CRC difference propagation

`crcRoundM` (one CRC round followed by the 16-bit mask) is GF(2)-linear and
maps nonzero 16-bit values to nonzero 16-bit values; a one-byte difference
in the checked data therefore always changes the final CRC. -/

theorem and_mask16_of_lt (d : Nat) (h : d < 65536) : d &&& 0xFFFF = d := by
  rw [show (0xFFFF : Nat) = 2 ^ 16 - 1 by norm_num, Nat.and_pow_two_sub_one_eq_mod]
  omega

theorem shiftLeft_xor_distrib (a b k : Nat) :
    (a ^^^ b) <<< k = (a <<< k) ^^^ (b <<< k) := by
  apply Nat.eq_of_testBit_eq
  intro i
  simp only [Nat.testBit_shiftLeft, Nat.testBit_xor]
  by_cases h : k ≤ i <;> simp [h]

theorem shiftLeft_one_mask (x : Nat) :
    ((x &&& 0xFFFF) <<< 1) &&& 0xFFFF = (x <<< 1) &&& 0xFFFF := by
  apply Nat.eq_of_testBit_eq
  intro i
  simp only [Nat.testBit_and, Nat.testBit_shiftLeft,
    show (0xFFFF : Nat) = 2 ^ 16 - 1 by norm_num, Nat.testBit_two_pow_sub_one]
  by_cases h1 : 1 ≤ i
  · by_cases h2 : i < 16
    · simp [h1, h2, show i - 1 < 16 by omega]
    · simp [h2]
  · simp [h1]

theorem crcRound_mask (x : Nat) :
    (crcRound x) &&& 0xFFFF = crcRoundM (x &&& 0xFFFF) := by
  unfold crcRoundM crcRound
  rw [Nat.and_assoc, show (0xFFFF &&& 0x8000 : Nat) = 0x8000 by decide]
  split_ifs with h
  · simp [Nat.and_xor_distrib_right, shiftLeft_one_mask]
  · exact (shiftLeft_one_mask x).symm

theorem crcRoundM_lt (x : Nat) : crcRoundM x < 65536 := by
  have h : crcRoundM x ≤ 0xFFFF := Nat.and_le_right
  omega

theorem crc_iterate_mask (n : Nat) : ∀ (x : Nat),
    (crcRound^[n] x) &&& 0xFFFF = crcRoundM^[n] (x &&& 0xFFFF) := by
  induction n with
  | zero => intro x; simp
  | succ n ih =>
    intro x
    rw [Function.iterate_succ_apply', crcRound_mask, ih]
    exact (Function.iterate_succ_apply' crcRoundM n (x &&& 0xFFFF)).symm

theorem crcByte_eq_M (c b : Nat) :
    crcByte c b = crcRoundM^[8] ((c ^^^ (b <<< 8)) &&& 0xFFFF) := by
  unfold crcByte
  exact crc_iterate_mask 8 _

theorem nat_xor_left_comm (a b c : Nat) : a ^^^ (b ^^^ c) = b ^^^ (a ^^^ c) := by
  rw [← Nat.xor_assoc, Nat.xor_comm a b, Nat.xor_assoc]

theorem and_bit15_cases (a : Nat) : a &&& 0x8000 = 0 ∨ a &&& 0x8000 = 0x8000 := by
  rw [show (0x8000 : Nat) = 2 ^ 15 by norm_num, Nat.and_two_pow]
  cases a.testBit 15 <;> simp

theorem crcRoundM_linear (a d : Nat) :
    crcRoundM (a ^^^ d) = crcRoundM a ^^^ crcRoundM d := by
  unfold crcRoundM crcRound
  have hx : (a ^^^ d) &&& 0x8000 = (a &&& 0x8000) ^^^ (d &&& 0x8000) :=
    Nat.and_xor_distrib_right
  rcases and_bit15_cases a with ha | ha <;> rcases and_bit15_cases d with hd | hd <;>
    simp only [hx, ha, hd, Nat.xor_self, Nat.xor_zero, Nat.zero_xor] <;>
    norm_num <;>
    simp [shiftLeft_xor_distrib, ← Nat.and_xor_distrib_right, Nat.xor_assoc,
      Nat.xor_comm, nat_xor_left_comm, Nat.xor_self, Nat.xor_zero, Nat.zero_xor]

theorem crcRoundM_iter_linear (n : Nat) : ∀ (a d : Nat),
    crcRoundM^[n] (a ^^^ d) = crcRoundM^[n] a ^^^ crcRoundM^[n] d := by
  induction n with
  | zero => intro a d; simp
  | succ n ih =>
    intro a d
    rw [Function.iterate_succ_apply, Function.iterate_succ_apply,
      Function.iterate_succ_apply, crcRoundM_linear, ih]

theorem crcRoundM_ne_zero (d : Nat) (h0 : d ≠ 0) (hlt : d < 65536) :
    crcRoundM d ≠ 0 := by
  unfold crcRoundM crcRound
  split_ifs with hb
  · intro hcontra
    have hbit := congrArg (fun x => x.testBit 0) hcontra
    simp only [Nat.testBit_and, Nat.testBit_xor, Nat.testBit_shiftLeft,
      Nat.zero_testBit] at hbit
    rw [show ((0x1021 : Nat).testBit 0) = true by decide,
      show ((0xFFFF : Nat).testBit 0) = true by decide] at hbit
    simp at hbit
  · have hd15 : d < 32768 := by
      by_contra hge
      push_neg at hge
      apply hb
      rw [show (0x8000 : Nat) = 2 ^ 15 by norm_num, Nat.and_two_pow]
      have ht : d.testBit 15 = true := by
        rw [Nat.testBit_to_div_mod]
        simp only [decide_eq_true_eq]
        omega
      simp [ht]
    rw [Nat.shiftLeft_eq, and_mask16_of_lt _ (by omega)]
    omega

theorem crcRoundM_iter_ne_zero (n : Nat) : ∀ (d : Nat), d ≠ 0 → d < 65536 →
    crcRoundM^[n] d ≠ 0 ∧ crcRoundM^[n] d < 65536 := by
  induction n with
  | zero => intro d h0 hlt; simpa using ⟨h0, hlt⟩
  | succ n ih =>
    intro d h0 hlt
    rw [Function.iterate_succ_apply]
    exact ih _ (crcRoundM_ne_zero d h0 hlt) (crcRoundM_lt d)

theorem crcByte_xor_right (c d b : Nat) (hd : d < 65536) :
    crcByte (c ^^^ d) b = crcByte c b ^^^ crcRoundM^[8] d := by
  rw [crcByte_eq_M, crcByte_eq_M]
  have h1 : (c ^^^ d) ^^^ (b <<< 8) = (c ^^^ (b <<< 8)) ^^^ d := by
    rw [Nat.xor_assoc, Nat.xor_assoc, Nat.xor_comm d (b <<< 8)]
  rw [h1, Nat.and_xor_distrib_right, and_mask16_of_lt d hd, crcRoundM_iter_linear]

theorem foldl_crcByte_xor_ne : ∀ (l : List Nat) (c d : Nat), d ≠ 0 → d < 65536 →
    l.foldl crcByte (c ^^^ d) ≠ l.foldl crcByte c := by
  intro l
  induction l with
  | nil =>
    intro c d h0 _ hcontra
    simp only [List.foldl_nil] at hcontra
    apply h0
    have hcc := congrArg (fun x => c ^^^ x) hcontra
    simp only [← Nat.xor_assoc, Nat.xor_self, Nat.zero_xor] at hcc
    exact hcc
  | cons x xs ih =>
    intro c d h0 hlt
    rw [List.foldl_cons, List.foldl_cons, crcByte_xor_right c d x hlt]
    have h8 := crcRoundM_iter_ne_zero 8 d h0 hlt
    exact ih (crcByte c x) _ h8.1 h8.2

theorem crc_single_byte_change (pre suf : List Nat) (b bm : Nat)
    (hb : b < 256) (hbm : bm < 256) (hne : bm ≠ b) :
    calculate_crc (pre ++ bm :: suf) ≠ calculate_crc (pre ++ b :: suf) := by
  unfold calculate_crc
  rw [List.foldl_append, List.foldl_append, List.foldl_cons, List.foldl_cons]
  have hδ0 : (b ^^^ bm) <<< 8 ≠ 0 := by
    rw [Nat.shiftLeft_eq]
    have : b ^^^ bm ≠ 0 := fun hc => hne (Nat.xor_eq_zero.mp hc).symm
    positivity
  have hδlt : (b ^^^ bm) <<< 8 < 65536 := by
    rw [Nat.shiftLeft_eq]
    have : b ^^^ bm < 256 := Nat.xor_lt_two_pow (n := 8) hb hbm
    omega
  have hkey : crcByte (pre.foldl crcByte 0) bm
      = crcByte (pre.foldl crcByte 0) b ^^^ crcRoundM^[8] ((b ^^^ bm) <<< 8) := by
    have hsw : (pre.foldl crcByte 0) ^^^ (bm <<< 8)
        = ((pre.foldl crcByte 0) ^^^ ((b ^^^ bm) <<< 8)) ^^^ (b <<< 8) := by
      rw [shiftLeft_xor_distrib, Nat.xor_assoc, Nat.xor_assoc]
      rw [Nat.xor_comm (bm <<< 8) (b <<< 8), ← Nat.xor_assoc (b <<< 8),
        Nat.xor_self, Nat.zero_xor]
    rw [crcByte_eq_M, hsw, ← crcByte_eq_M,
      crcByte_xor_right _ _ _ hδlt]
  rw [hkey]
  have h8 := crcRoundM_iter_ne_zero 8 _ hδ0 hδlt
  exact foldl_crcByte_xor_ne suf (crcByte (pre.foldl crcByte 0) b) _ h8.1 h8.2

theorem deescape_cons_plain (b : Nat) (hb : b ≠ 0x7F) (t : List Nat) :
    deescape_payload (b :: t) = (deescape_payload t).map (fun d => b :: d) := by
  rw [deescape_payload.eq_def]
  simp [hb]

theorem deescape_cons_esc (x : Nat) (t : List Nat) :
    deescape_payload (0x7F :: x :: t) =
      if x = 0xFD then (deescape_payload t).map (fun d => 0x7D :: d)
      else if x = 0xFE then (deescape_payload t).map (fun d => 0x7E :: d)
      else if x = 0xFF then (deescape_payload t).map (fun d => 0x7F :: d)
      else none := by
  rw [deescape_payload.eq_def]
  simp

theorem deescape_single_esc : deescape_payload [0x7F] = none := by
  rw [deescape_payload.eq_def]
  simp

/-- Effect of one byte change inside an escaped stream: de-escaping the
mutated stream either fails, or yields a byte string of different length
(an escape sequence was created or destroyed), or yields the original with
exactly one byte replaced (by the mutated value itself or by an unescaped
reserved byte). -/
theorem deescape_mutated : ∀ (u p q : List Nat) (e v : Nat),
    escapeBytes u = p ++ e :: q → v ≠ e →
    deescape_payload (p ++ v :: q) = none ∨
    ∃ u', deescape_payload (p ++ v :: q) = some u' ∧
      (u'.length ≠ u.length ∨
       ∃ u1 u2 w w0, u = u1 ++ w0 :: u2 ∧ u' = u1 ++ w :: u2 ∧ w ≠ w0 ∧
         (w = v ∨ w = 0x7D ∨ w = 0x7E ∨ w = 0x7F)) := by
  intro u
  induction u with
  | nil =>
    intro p q e v hE _
    simp [escapeBytes] at hE
  | cons b t ih =>
    intro p q e v hE hv
    by_cases hb : b = 0x7D ∨ b = 0x7E ∨ b = 0x7F
    · -- reserved byte: chunk is [0x7F, m]
      have hchunk : ∃ m, escChunk b = [0x7F, m] ∧
          (m = 0xFD ∧ b = 0x7D ∨ m = 0xFE ∧ b = 0x7E ∨ m = 0xFF ∧ b = 0x7F) := by
        rcases hb with hb | hb | hb <;> subst hb <;> simp [escChunk]
      obtain ⟨m, hm, hmb⟩ := hchunk
      rw [escapeBytes, hm] at hE
      have hm7F : m ≠ 0x7F := by rcases hmb with ⟨h, _⟩ | ⟨h, _⟩ | ⟨h, _⟩ <;> omega
      rcases p with _ | ⟨p1, p⟩
      · -- mutation hits the 0x7F of the escape pair
        simp only [List.cons_append, List.nil_append, List.cons.injEq] at hE
        obtain ⟨he, hq⟩ := hE
        subst he
        right
        refine ⟨v :: m :: t, ?_, Or.inl (by simp)⟩
        rw [List.nil_append, ← hq, deescape_cons_plain v hv,
          deescape_cons_plain m hm7F, deescape_escape]
        rfl
      · rcases p with _ | ⟨p2, p⟩
        · -- mutation hits the second byte of the escape pair
          simp only [List.cons_append, List.nil_append, List.cons.injEq] at hE
          obtain ⟨hp1, he, hq⟩ := hE
          subst hp1
          subst he
          by_cases hfd : v = 0xFD
          · subst hfd
            right
            refine ⟨0x7D :: t, ?_, Or.inr ⟨[], t, 0x7D, b, by simp, by simp, ?_, by simp⟩⟩
            · rw [List.cons_append, List.nil_append, ← hq, deescape_cons_esc]
              simp [deescape_escape]
            · rcases hmb with ⟨hm1, hb1⟩ | ⟨hm1, hb1⟩ | ⟨hm1, hb1⟩ <;> omega
          · by_cases hfe : v = 0xFE
            · subst hfe
              right
              refine ⟨0x7E :: t, ?_, Or.inr ⟨[], t, 0x7E, b, by simp, by simp, ?_, by simp⟩⟩
              · rw [List.cons_append, List.nil_append, ← hq, deescape_cons_esc]
                simp [deescape_escape]
              · rcases hmb with ⟨hm1, hb1⟩ | ⟨hm1, hb1⟩ | ⟨hm1, hb1⟩ <;> omega
            · by_cases hff : v = 0xFF
              · subst hff
                right
                refine ⟨0x7F :: t, ?_, Or.inr ⟨[], t, 0x7F, b, by simp, by simp, ?_, by simp⟩⟩
                · rw [List.cons_append, List.nil_append, ← hq, deescape_cons_esc]
                  simp [deescape_escape]
                · rcases hmb with ⟨hm1, hb1⟩ | ⟨hm1, hb1⟩ | ⟨hm1, hb1⟩ <;> omega
              · left
                rw [List.cons_append, List.nil_append, deescape_cons_esc]
                simp [hfd, hfe, hff]
        · -- mutation lies beyond this chunk: recurse
          simp only [List.cons_append, List.cons.injEq] at hE
          obtain ⟨hp1, hp2, hrest⟩ := hE
          subst hp1
          subst hp2
          rcases ih p q e v hrest hv with hnone | ⟨u'', hu'', hcase⟩
          · left
            simp only [List.cons_append, deescape_cons_esc, hnone]
            rcases hmb with ⟨hm1, _⟩ | ⟨hm1, _⟩ | ⟨hm1, _⟩ <;> subst hm1 <;> simp
          · right
            refine ⟨b :: u'', ?_, ?_⟩
            · simp only [List.cons_append, deescape_cons_esc, hu'']
              rcases hmb with ⟨hm1, hb1⟩ | ⟨hm1, hb1⟩ | ⟨hm1, hb1⟩ <;>
                subst hm1 <;> subst hb1 <;> simp
            · rcases hcase with hlen | ⟨u1, u2, w, w0, h1, h2, h3, h4⟩
              · left
                simp only [List.length_cons]
                omega
              · right
                exact ⟨b :: u1, u2, w, w0, by simp [h1], by simp [h2], h3, h4⟩
    · -- plain byte: chunk is [b]
      have hb7F : b ≠ 0x7F := by push_neg at hb; exact hb.2.2
      have hchunk : escChunk b = [b] := by
        push_neg at hb
        simp [escChunk, hb.1, hb.2.1, hb.2.2]
      rw [escapeBytes, hchunk] at hE
      rcases p with _ | ⟨p1, p⟩
      · -- mutation hits the plain byte itself
        simp only [List.cons_append, List.nil_append, List.cons.injEq] at hE
        obtain ⟨he, hq⟩ := hE
        subst he
        by_cases hv7 : v = 0x7F
        · subst hv7
          rcases t with _ | ⟨c, t2⟩
          · left
            simp only [escapeBytes] at hq
            rw [List.nil_append, ← hq]
            exact deescape_single_esc
          · rw [escapeBytes] at hq
            by_cases hc : c = 0x7D ∨ c = 0x7E ∨ c = 0x7F
            · left
              have : ∃ mc, escChunk c = [0x7F, mc] := by
                rcases hc with hc | hc | hc <;> subst hc <;> simp [escChunk]
              obtain ⟨mc, hmc⟩ := this
              rw [List.nil_append, ← hq, hmc, List.cons_append, deescape_cons_esc]
              simp
            · have hcc : escChunk c = [c] := by
                push_neg at hc
                simp [escChunk, hc.1, hc.2.1, hc.2.2]
              rw [List.nil_append, ← hq, hcc, List.cons_append]
              by_cases hfd : c = 0xFD
              · subst hfd
                right
                refine ⟨0x7D :: t2, ?_, Or.inl (by simp)⟩
                rw [deescape_cons_esc]
                simp [deescape_escape]
              · by_cases hfe : c = 0xFE
                · subst hfe
                  right
                  refine ⟨0x7E :: t2, ?_, Or.inl (by simp)⟩
                  rw [deescape_cons_esc]
                  simp [deescape_escape]
                · by_cases hff : c = 0xFF
                  · subst hff
                    right
                    refine ⟨0x7F :: t2, ?_, Or.inl (by simp)⟩
                    rw [deescape_cons_esc]
                    simp [deescape_escape]
                  · left
                    rw [deescape_cons_esc]
                    simp [hfd, hfe, hff]
        · right
          refine ⟨v :: t, ?_, Or.inr ⟨[], t, v, b, by simp, by simp, hv, Or.inl rfl⟩⟩
          rw [List.nil_append, ← hq, deescape_cons_plain v hv7, deescape_escape]
          rfl
      · -- mutation lies beyond this chunk: recurse
        simp only [List.cons_append, List.cons.injEq] at hE
        obtain ⟨hp1, hrest⟩ := hE
        subst hp1
        rcases ih p q e v hrest hv with hnone | ⟨u'', hu'', hcase⟩
        · left
          rw [List.cons_append, deescape_cons_plain b hb7F, hnone]
          rfl
        · right
          refine ⟨b :: u'', ?_, ?_⟩
          · rw [List.cons_append, deescape_cons_plain b hb7F, hu'']
            rfl
          · rcases hcase with hlen | ⟨u1, u2, w, w0, h1, h2, h3, h4⟩
            · left
              simp only [List.length_cons]
              omega
            · right
              exact ⟨b :: u1, u2, w, w0, by simp [h1], by simp [h2], h3, h4⟩

theorem pack16_bytes_lt (n : Nat) : ∀ x ∈ pack16 n, x < 256 := by
  intro x hx
  simp [pack16] at hx
  rcases hx with h | h <;> subst h <;> exact Nat.mod_lt _ (by norm_num)

theorem frame_body_bytes_lt (ftv sq aq : Nat) (data : List Nat)
    (hsq : sq < 256) (haq : aq < 256) (hftv : ftv < 256)
    (hdata : ∀ x ∈ data, x < 256) :
    ∀ x ∈ frame_body ftv data sq aq, x < 256 := by
  intro x hx
  rw [frame_body] at hx
  have hcases : x = 0x04 ∨ x = 0x10 ∨ x = sq ∨ x = aq ∨ x = ftv ∨
      x ∈ pack16 data.length ∨ x ∈ data := by
    split at hx <;> simp at hx <;> tauto
  rcases hcases with h | h | h | h | h | h | h
  · omega
  · omega
  · omega
  · omega
  · omega
  · exact pack16_bytes_lt _ x h
  · exact hdata x h

/-- C6 amended, part 1: any single-byte mutation strictly between the
delimiters of a valid encoded frame that still de-escapes to a byte string
of the original length is caught by the CRC comparison: decoding fails with
a CRC error.  (The mutation is given by the split `p ++ e :: q` of the
escaped stream, with `v ≠ e` the replacing byte.) -/
theorem c6_same_length_crc_error (ftv sq aq : Nat) (data : List Nat)
    (p q : List Nat) (e v : Nat) (u' : List Nat)
    (hsq : sq < 256) (haq : aq < 256) (hftv : ftv < 256)
    (hdata : ∀ x ∈ data, x < 256)
    (hsplit : escapeBytes (frame_body ftv data sq aq
        ++ pack16 (calculate_crc (frame_body ftv data sq aq))) = p ++ e :: q)
    (hv : v ≠ e) (hv' : v < 256)
    (hde : deescape_payload (p ++ v :: q) = some u')
    (hulen : u'.length = (frame_body ftv data sq aq
        ++ pack16 (calculate_crc (frame_body ftv data sq aq))).length) :
    decode_frame (0x7D :: (p ++ v :: q) ++ [0x7E]) = .crcError := by
  have hplumb : ((0x7D : Nat) :: (p ++ v :: q) ++ [0x7E]).tail.dropLast
      = p ++ v :: q := by
    show ((p ++ v :: q) ++ [0x7E]).dropLast = p ++ v :: q
    exact List.dropLast_concat ..
  rw [decode_frame]
  rw [if_pos ⟨rfl, List.getLast?_concat _⟩]
  rw [hplumb, hde]
  dsimp only
  have hUlen : u'.length = (frame_body ftv data sq aq).length + 2 := by
    rw [hulen]
    simp [pack16]
  rw [if_pos (by omega : 2 ≤ u'.length)]
  have hn2 : u'.length - 2 = (frame_body ftv data sq aq).length := by omega
  rcases deescape_mutated _ p q e v hsplit hv with hnone | ⟨u'', hu'', hcase⟩
  · rw [hde] at hnone
    cases hnone
  · rw [hde] at hu''
    have hueq : u'' = u' := by
      injection hu'' with hval
      exact hval.symm
    subst hueq
    rcases hcase with hlen | ⟨u1, u2, w, w0, h1, h2, h3, h4⟩
    · exact absurd hulen hlen
    · have hw : w < 256 := by
        rcases h4 with h | h | h | h <;> omega
      have hUbytes : ∀ x ∈ frame_body ftv data sq aq
          ++ pack16 (calculate_crc (frame_body ftv data sq aq)), x < 256 := by
        intro x hx
        rcases List.mem_append.mp hx with h | h
        · exact frame_body_bytes_lt ftv sq aq data hsq haq hftv hdata x h
        · exact pack16_bytes_lt _ x h
      have hw0 : w0 < 256 := hUbytes w0 (by rw [h1]; simp)
      have hk : u1.length ≤ (frame_body ftv data sq aq).length + 1 := by
        have hlen1 := congrArg List.length h1
        simp [pack16] at hlen1
        omega
      have hcrclt := calculate_crc_lt (frame_body ftv data sq aq)
      by_cases hA : u1.length < (frame_body ftv data sq aq).length
      · -- mutation inside the CRC-protected data region
        have htakeu : ∀ (z : Nat) (zs : List Nat),
            (u1 ++ z :: zs).take (frame_body ftv data sq aq).length
              = u1 ++ z :: zs.take ((frame_body ftv data sq aq).length - u1.length - 1) := by
          intro z zs
          rw [List.take_append_eq_append_take, List.take_of_length_le (by omega),
            show (frame_body ftv data sq aq).length - u1.length
              = ((frame_body ftv data sq aq).length - u1.length - 1) + 1 by omega,
            List.take_succ_cons]
          simp
        have hdropu : ∀ (z : Nat) (zs : List Nat),
            (u1 ++ z :: zs).drop (frame_body ftv data sq aq).length
              = zs.drop ((frame_body ftv data sq aq).length - u1.length - 1) := by
          intro z zs
          rw [List.drop_append_eq_append_drop, List.drop_eq_nil_of_le (by omega),
            show (frame_body ftv data sq aq).length - u1.length
              = ((frame_body ftv data sq aq).length - u1.length - 1) + 1 by omega,
            List.drop_succ_cons, List.nil_append]
          simp
        have hbody_eq : frame_body ftv data sq aq
            = u1 ++ w0 :: u2.take ((frame_body ftv data sq aq).length - u1.length - 1) := by
          have hh := congrArg (List.take (frame_body ftv data sq aq).length) h1
          rw [List.take_left, htakeu] at hh
          exact hh
        have hpack_eq : pack16 (calculate_crc (frame_body ftv data sq aq))
            = u2.drop ((frame_body ftv data sq aq).length - u1.length - 1) := by
          have hh := congrArg (List.drop (frame_body ftv data sq aq).length) h1
          rw [List.drop_left, hdropu] at hh
          exact hh
        rw [if_neg]
        rw [hn2, h2, htakeu, hdropu, ← hpack_eq,
          unpack16_pack16 _ hcrclt]
        intro hcontra
        exact crc_single_byte_change u1
          (u2.take ((frame_body ftv data sq aq).length - u1.length - 1)) w0 w hw0 hw h3
          (by rw [← hcontra, ← hbody_eq])
      · by_cases hB : u1.length = (frame_body ftv data sq aq).length
        · -- mutation hits the first stored CRC byte
          obtain ⟨hu1, hrest⟩ := List.append_inj h1 hB.symm
          rw [pack16] at hrest
          have hw0c1 : w0 = calculate_crc (frame_body ftv data sq aq) % 256 :=
            (List.cons.inj hrest).1.symm
          have hu2c : u2 = [calculate_crc (frame_body ftv data sq aq) / 256 % 256] :=
            ((List.cons.inj hrest).2).symm
          rw [if_neg]
          rw [hn2, h2, hu2c, ← hu1]
          rw [List.take_left, List.drop_left]
          rw [show unpack16 (w :: [calculate_crc (frame_body ftv data sq aq) / 256 % 256])
                = w + 256 * (calculate_crc (frame_body ftv data sq aq) / 256 % 256) from rfl]
          intro hcontra
          apply h3
          rw [hw0c1]
          omega
        · -- mutation hits the second stored CRC byte
          have hC : u1.length = (frame_body ftv data sq aq).length + 1 := by omega
          have h1' : ((frame_body ftv data sq aq)
              ++ [calculate_crc (frame_body ftv data sq aq) % 256])
              ++ [calculate_crc (frame_body ftv data sq aq) / 256 % 256]
              = u1 ++ w0 :: u2 := by
            rw [← h1, pack16]
            simp
          obtain ⟨hu1, hrest⟩ := List.append_inj h1' (by simp [hC])
          have hw0c1 : w0 = calculate_crc (frame_body ftv data sq aq) / 256 % 256 :=
            (List.cons.inj hrest).1.symm
          have hu2c : u2 = [] := ((List.cons.inj hrest).2).symm
          rw [if_neg]
          rw [hn2, h2, hu2c, ← hu1, List.append_assoc, List.take_left, List.drop_left]
          rw [show unpack16 ([calculate_crc (frame_body ftv data sq aq) % 256] ++ [w])
                = calculate_crc (frame_body ftv data sq aq) % 256 + 256 * w from rfl]
          intro hcontra
          apply h3
          rw [hw0c1]
          omega

set_option maxRecDepth 8192 in
/-- Counterexample to C6 as stated: `build_frame 0x85 [133, 121, 0x7D] 0 0`
is a valid encoded frame (13 bytes, it decodes), and mutating the single
interior byte at index 8 — the escape marker 0x7F of the escaped payload
byte 0x7D — to 94 yields a frame that still decodes successfully (the
de-escaped data shrinks by one byte and, for this payload, the recomputed
CRC collides with the stored one).  Decoding the mutated frame neither
fails with a CRC error nor fails at all. -/
theorem c6_counterexample :
    (build_frame 0x85 [133, 121, 0x7D] 0 0).length = 13 ∧
    decode_frame (build_frame 0x85 [133, 121, 0x7D] 0 0) = .ok 0x85 0 0 [0x7D] ∧
    (build_frame 0x85 [133, 121, 0x7D] 0 0).get? 8 = some 0x7F ∧
    decode_frame ((build_frame 0x85 [133, 121, 0x7D] 0 0).set 8 94)
      = .ok 0x85 0 0 [94, 0xFD] ∧
    decode_frame ((build_frame 0x85 [133, 121, 0x7D] 0 0).set 8 94)
      ≠ .crcError := by
  refine ⟨by decide, by decide, by decide, by decide, by decide⟩

set_option maxRecDepth 8192 in
/-- Witness for the amended C6: an SDI frame with empty payload whose first
body byte 0x04 is overwritten with 0x05; the de-escaped length is unchanged
and decoding fails with a CRC error. -/
theorem c6_witness :
    decode_frame (0x7D :: ([] ++ 5 :: [16, 0, 0, 133, 140, 83]) ++ [0x7E])
      = DecodeResult.crcError :=
  c6_same_length_crc_error 0x85 0 0 [] [] [16, 0, 0, 133, 140, 83] 4 5
    [5, 16, 0, 0, 133, 140, 83] (by decide) (by decide) (by decide)
    (by intro x hx; cases hx) (by decide) (by decide) (by decide)
    (by decide) (by decide)
